import Mathlib

/-!
Verification of the event batching, delivery and redaction pipeline of the
trubblestack repository (splunk_pulsar_return.py, splunk_nova_return.py,
nebula_osquery.py), as a shallow embedding in Lean 4.

The delivery client (`http_event_collector`) is embedded as a pure state
machine.  Network effects are abstracted by an oracle
`net : String → Nat → AttemptOutcome` giving, for each endpoint URL and
0-based attempt index within one flush, the outcome of the HTTP POST; the
observable side effects (sleeps and POSTs) are recorded in a trace of
`Action`s.  The module-level `RETRY` flag and the two `config.get` lookups
are passed as explicit parameters.
-/

namespace Hubble

/-- Outcome of one `requests.post` attempt inside `flushBatch`, matching the
five `except` clauses of the source (plus success via `raise_for_status`). -/
inductive AttemptOutcome where
  | success
  | timeout
  | connectionError
  | httpError
  | requestException
  | otherException
deriving DecidableEq, Repr

/-- One observable side effect of `flushBatch`: a `time.sleep(retry_sleep)`
or a `requests.post(url, data=body)` for the given 0-based attempt index. -/
inductive Action where
  | sleep (url : String) (secs : Nat)
  | post (url : String) (attempt : Nat) (body : String)
deriving DecidableEq, Repr

/-- State of one `http_event_collector` instance: the fields mutated by
`batchEvent`/`flushBatch`.  `serverUri` is the list of
`[url, is_healthy]` pairs built in `__init__`. -/
structure HecState where
  batchEvents : List String
  currentByteLength : Nat
  maxByteLength : Nat
  serverUri : List (String × Bool)
deriving DecidableEq, Repr

/-- The per-endpoint retry loop of `flushBatch`:

    retries = -1
    while retries < max_retries:
        retries += 1
        if retries != 0: time.sleep(retry_sleep)
        try: r = requests.post(...); r.raise_for_status(); server[1] = True; success = True; break
        except Timeout: pass-after-log
        except ConnectionError: pass-after-log
        except HTTPError: pass-after-log
        except RequestException: server[1] = False
        except Exception: pass-after-log

`retries` is the 0-based attempt index; the loop body runs for
`retries = 0 .. max_retries`, so it is embedded with a countdown
`remaining` that starts at `max_retries + 1`.  Returns
(success flag, final health of this endpoint, trace of actions). -/
def serverAttempts (net : String → Nat → AttemptOutcome) (url : String)
    (retrySleep : Nat) (body : String) :
    Nat → Nat → Bool → Bool × Bool × List Action
  | _, 0, healthy => (false, healthy, [])
  | retries, remaining + 1, healthy =>
    let pre : List Action :=
      if retries ≠ 0 then [Action.sleep url retrySleep] else []
    let acts := pre ++ [Action.post url retries body]
    let go : Bool → Bool × Bool × List Action := fun h =>
      let r := serverAttempts net url retrySleep body (retries + 1) remaining h
      (r.1, r.2.1, acts ++ r.2.2)
    match net url retries with
    | .success => (true, true, acts)
    | .timeout => go healthy
    | .connectionError => go healthy
    | .httpError => go healthy
    | .requestException => go false
    | .otherException => go healthy

/-- The endpoint loop of `flushBatch`: `for server in self.server_uri: ...`
with `if success: break` after the retry loop of each endpoint.  Returns
(success flag, updated endpoint list, trace). -/
def flushServers (net : String → Nat → AttemptOutcome)
    (maxRetries retrySleep : Nat) (body : String) :
    List (String × Bool) → Bool × List (String × Bool) × List Action
  | [] => (false, [], [])
  | (url, h) :: rest =>
    let r := serverAttempts net url retrySleep body 0 (maxRetries + 1) h
    if r.1 then (true, (url, r.2.1) :: rest, r.2.2)
    else
      let r2 := flushServers net maxRetries retrySleep body rest
      (r2.1, (url, r.2.1) :: r2.2.1, r.2.2 ++ r2.2.2)

/-- `flushBatch`.  When the pending list is non-empty it filters
`server_uri` down to entries whose health is not `False`, resolves
`max_retries`/`retry_sleep` from the `RETRY` flag and configuration, posts
the space-joined concatenation of `batchEvents` with the retry/failover
loops, and finally clears `batchEvents` and resets `currentByteLength`
unconditionally.  On an empty pending list it does nothing. -/
def flushBatch (net : String → Nat → AttemptOutcome) (retryFlag : Bool)
    (cfgMaxRetries cfgRetrySleep : Nat) (st : HecState) :
    HecState × List Action :=
  if st.batchEvents.length > 0 then
    let filtered := st.serverUri.filter (fun x => x.2 ≠ false)
    let maxRetries := if retryFlag then cfgMaxRetries else 0
    let retrySleep := if retryFlag then cfgRetrySleep else 15
    let body := String.intercalate " " st.batchEvents
    let r := flushServers net maxRetries retrySleep body filtered
    ({ st with serverUri := r.2.1, batchEvents := [], currentByteLength := 0 },
     r.2.2)
  else (st, [])

/-- `batchEvent`.  The payload is abstracted by its serialized JSON string
`payloadString` (the source computes `payloadString = json.dumps(payload)`
and `payloadLength = len(payloadString)`).  If the pending byte count plus
the length of the event exceeds `maxByteLength`, `flushBatch` runs first and the
`else` branch that would add `payloadLength` to the counter is skipped;
either way the serialized event is appended to the pending list. -/
def batchEvent (net : String → Nat → AttemptOutcome) (retryFlag : Bool)
    (cfgMaxRetries cfgRetrySleep : Nat) (st : HecState)
    (payloadString : String) : HecState × List Action :=
  let payloadLength := payloadString.length
  if st.currentByteLength + payloadLength > st.maxByteLength then
    let r := flushBatch net retryFlag cfgMaxRetries cfgRetrySleep st
    ({ r.1 with batchEvents := r.1.batchEvents ++ [payloadString] }, r.2)
  else
    ({ st with
        currentByteLength := st.currentByteLength + payloadLength,
        batchEvents := st.batchEvents ++ [payloadString] }, [])

/-- `_dedupList` from splunk_pulsar_return.py:

    deduped = []
    for i, x in enumerate(l):
        if x not in l[i + 1:]:
            deduped.append(x)
    return deduped

At the suffix `x :: xs` the slice `l[i+1:]` is exactly `xs`. -/
def dedupList {α : Type} [DecidableEq α] : List α → List α
  | [] => []
  | x :: xs => if x ∈ xs then dedupList xs else x :: dedupList xs

/-!
Redaction engine (mask_passwords_inplace in nebula_osquery.py).

Values of the semi-structured YAML/JSON space are embedded as `Value`.
Python dicts are association lists (unique keys, insertion order).
A Python `re.sub(pattern, repl, value)` call is abstracted by a
substitution oracle `subst : String → String → String → String` taking the
pattern, the mask_by replacement and the value.  A rule read from the
(possibly malformed) mask configuration has `Option` fields: `none`
represents a missing key, whose access raises a KeyError.  In-place
mutation with exceptions is embedded by state passing: each processing
function returns the updated data together with `Option String`, where
`some e` is an exception propagating upward (carrying the mutations already
performed, as Python in-place mutation does).
-/

/-- Semi-structured values (parsed YAML / query-result JSON). -/
inductive Value where
  | null
  | str (s : String)
  | num (n : Int)
  | list (xs : List Value)
  | dict (d : List (String × Value))
deriving Repr

/-- One query-result row: a dict from column name to value. -/
abbrev Row := List (String × Value)

/-- `row[column]` lookup (`column in query_result` / `query_result[column]`). -/
def rowGet (row : Row) (k : String) : Option Value :=
  (row.find? (fun p => p.1 == k)).map (fun p => p.2)

/-- `query_result[column] = value` on an existing key: Python dicts keep
the insertion position of an updated key. -/
def rowSet (row : Row) (k : String) (v : Value) : Row :=
  row.map (fun p => if p.1 == k then (k, v) else p)

/-- One `blacklisted_strings` rule.  `none` in a field means the key is
missing from the mask configuration document (malformed rule): reading it
raises a KeyError. -/
structure StrRule where
  query_name : Option String
  column : Option String
  blacklisted_patterns : Option (List String)

/-- The object being masked: a list of results `r`, each a dict from query
name to that query`s rows (the `{data: rows, result: bool}` wrapper of the
source is elided down to the rows, the only part masking touches). -/
abbrev MaskObj := List (List (String × List Row))

/-- The innermost loop of the `blacklisted_strings` masking:

    for query_result in rows:
        if column not in query_result or not isinstance(query_result[column], basestring):
            break
        value = query_result[column]
        for pattern in blacklisted_string[<blacklisted_patterns>]:
            value = re.sub(...)
        query_result[column] = value

The `break` leaves the remaining rows untouched.  The
`blacklisted_patterns` key is only read once a maskable row is reached, so
a missing key (`patternsOpt = none`) raises only then. -/
def maskStrRows (subst : String → String → String → String)
    (patternsOpt : Option (List String)) (maskBy : String) (column : String) :
    List Row → List Row × Option String
  | [] => ([], none)
  | row :: rest =>
    match rowGet row column with
    | some (Value.str v) =>
      match patternsOpt with
      | none => (row :: rest, some "KeyError blacklisted_patterns")
      | some patterns =>
        let v2 := patterns.foldl (fun acc p => subst p maskBy acc) v
        let r := maskStrRows subst patternsOpt maskBy column rest
        (rowSet row column (Value.str v2) :: r.1, r.2)
    | _ => (row :: rest, none)

/-- The named-query branch (`query_name != <*>`) of a `blacklisted_strings`
rule: `for r in object_to_be_masked:` mask the rows of `r.get(query_name)`;
a missing query key masks the fresh `{data: []}` default, a no-op.  An
exception stops the iteration over the remaining results. -/
def maskStrQuery (subst : String → String → String → String)
    (patternsOpt : Option (List String)) (maskBy : String) (column : String)
    (qn : String) : MaskObj → MaskObj × Option String
  | [] => ([], none)
  | r :: rs =>
    let rows := ((r.find? (fun p => p.1 == qn)).map (fun p => p.2)).getD []
    let m := maskStrRows subst patternsOpt maskBy column rows
    let r2 := r.map (fun p => if p.1 == qn then (p.1, m.1) else p)
    match m.2 with
    | some e => (r2 :: rs, some e)
    | none =>
      let rest := maskStrQuery subst patternsOpt maskBy column qn rs
      (r2 :: rest.1, rest.2)

/-- Inner dict iteration of the `query_name == <*>` branch:
`for query_name, query_ret in r.iteritems():` mask every row list of `r`.
An exception stops the iteration over the remaining queries. -/
def maskStrAllQueries (subst : String → String → String → String)
    (patternsOpt : Option (List String)) (maskBy : String) (column : String) :
    List (String × List Row) → List (String × List Row) × Option String
  | [] => ([], none)
  | (qname, rows) :: rest =>
    let m := maskStrRows subst patternsOpt maskBy column rows
    match m.2 with
    | some e => ((qname, m.1) :: rest, some e)
    | none =>
      let r2 := maskStrAllQueries subst patternsOpt maskBy column rest
      ((qname, m.1) :: r2.1, r2.2)

/-- The `query_name == <*>` branch of a `blacklisted_strings` rule: apply
to every query of every result. -/
def maskStrStar (subst : String → String → String → String)
    (patternsOpt : Option (List String)) (maskBy : String) (column : String) :
    MaskObj → MaskObj × Option String
  | [] => ([], none)
  | r :: rs =>
    let m := maskStrAllQueries subst patternsOpt maskBy column r
    match m.2 with
    | some e => (m.1 :: rs, some e)
    | none =>
      let r2 := maskStrStar subst patternsOpt maskBy column rs
      (m.1 :: r2.1, r2.2)

/-- Apply one `blacklisted_strings` rule.  Reading a missing `query_name`
or `column` key raises before any mutation. -/
def applyStrRule (subst : String → String → String → String)
    (maskBy : String) (rule : StrRule) (obj : MaskObj) :
    MaskObj × Option String :=
  match rule.query_name with
  | none => (obj, some "KeyError query_name")
  | some qn =>
    match rule.column with
    | none => (obj, some "KeyError column")
    | some column =>
      if qn ≠ "*" then
        maskStrQuery subst rule.blacklisted_patterns maskBy column qn obj
      else maskStrStar subst rule.blacklisted_patterns maskBy column obj

/-- The rule loop `for blacklisted_string in mask.get(...):`.  An exception
raised by one rule aborts the whole loop (there is no per-rule handler in
the source; the only `except` is the one wrapping the entire function
body). -/
def applyStrRules (subst : String → String → String → String)
    (maskBy : String) : List StrRule → MaskObj → MaskObj × Option String
  | [], obj => (obj, none)
  | rule :: rs, obj =>
    let r := applyStrRule subst maskBy rule obj
    match r.2 with
    | some e => (r.1, some e)
    | none => applyStrRules subst maskBy rs r.1

/-- The mask configuration document, after the top-file load and deep
merge (which are external file/config IO in the source and are elided
here): the `blacklisted_strings` rules and the optional `mask_by` key.
The `blacklisted_objects` rules live in the same function and the same
outer try block; they are not needed by the claims settled here and are
elided. -/
structure MaskConfig where
  blacklisted_strings : List StrRule
  mask_by : Option String

/-- `mask_passwords_inplace`, from the point where the mask document has
been loaded.  `maskBy = mask.get(<mask_by>, <six asterisks>)`.  The entire
body sits in one `try: ... except Exception as e: log.exception(...)`:
whatever exception the rule processing raises is swallowed at function
level, keeping the mutations performed up to that point and applying no
further rule.  The function always returns (here: totally). -/
def mask_passwords_inplace (subst : String → String → String → String)
    (mask : MaskConfig) (obj : MaskObj) : MaskObj :=
  let maskBy := mask.mask_by.getD "******"
  let r := applyStrRules subst maskBy mask.blacklisted_strings obj
  r.1

/-!
Event construction of the nova returner (`returner` in
splunk_nova_return.py).  The three event kinds (Failure, Success,
Compliance) build an `event` dict by the same `event.update(...)` sequence
of host/identity fields; the Success path alone then removes
empty-string-valued keys before `payload.update(<event>: event)` hands the
event to batching.  Host identity, cloud details and the resolved custom
fields are gathered in `NovaCtx`.
-/

/-- `event.update(<k>: v)` / `event[k] = v`: Python dict update keeps the
position of an existing key and appends a new one. -/
def dictSet (d : List (String × Value)) (k : String) (v : Value) :
    List (String × Value) :=
  if d.any (fun p => p.1 == k) then
    d.map (fun p => if p.1 == k then (k, v) else p)
  else d ++ [(k, v)]

/-- A resolved custom-field value from `config.get(custom_field, <empty>)`:
a string maps directly, a list of strings is comma-joined, any other type
is silently dropped. -/
inductive CustomFieldVal where
  | str (s : String)
  | list (xs : List String)
  | other
deriving Repr

/-- Identity/context inputs of the nova returner event construction. -/
structure NovaCtx where
  jid : String
  master : String
  minion_id : String
  fqdn : String
  fqdn_ip4 : String
  local_fqdn : String
  system_uuid : Option String
  cloud_details : List (String × Value)
  custom_fields : List (String × CustomFieldVal)

/-- The block of `event.update(...)` calls shared verbatim by the Failure,
Success and Compliance paths: master, minion_id, dest_host, dest_ip,
dest_fqdn, system_uuid, the cloud details and the custom fields. -/
def novaCommonFields (ctx : NovaCtx) (e0 : List (String × Value)) :
    List (String × Value) :=
  let e := dictSet e0 "master" (Value.str ctx.master)
  let e := dictSet e "minion_id" (Value.str ctx.minion_id)
  let e := dictSet e "dest_host" (Value.str ctx.fqdn)
  let e := dictSet e "dest_ip" (Value.str ctx.fqdn_ip4)
  let e := dictSet e "dest_fqdn" (Value.str ctx.local_fqdn)
  let e := dictSet e "system_uuid"
    (match ctx.system_uuid with
     | some s => Value.str s
     | none => Value.null)
  let e := ctx.cloud_details.foldl (fun acc p => dictSet acc p.1 p.2) e
  ctx.custom_fields.foldl (fun acc p =>
    match p.2 with
    | CustomFieldVal.str s => dictSet acc ("custom_" ++ p.1) (Value.str s)
    | CustomFieldVal.list xs =>
      dictSet acc ("custom_" ++ p.1) (Value.str (String.intercalate "," xs))
    | CustomFieldVal.other => acc) e

/-- The description handling of the Failure/Success paths: a non-dict
check body becomes the `description` field; a dict body with a
`description` key is copied in wholesale except its `tag` key; a dict body
without `description` contributes nothing. -/
def checkDescriptionFields (e : List (String × Value)) (cd : Value) :
    List (String × Value) :=
  match cd with
  | Value.dict d =>
    if (d.find? (fun p => p.1 == "description")).isSome then
      d.foldl (fun acc p => if p.1 == "tag" then acc else dictSet acc p.1 p.2) e
    else e
  | v => dictSet e "description" v

/-- Common Failure/Success event build: check_result, check_id, job_id,
the description fields, then the shared identity block. -/
def novaCheckEvent (result : String) (ctx : NovaCtx) (check_id : String)
    (cd : Value) : List (String × Value) :=
  let e := dictSet [] "check_result" (Value.str result)
  let e := dictSet e "check_id" (Value.str check_id)
  let e := dictSet e "job_id" (Value.str ctx.jid)
  let e := checkDescriptionFields e cd
  novaCommonFields ctx e

/-- `remove_keys = [k for k in event if event[k] == <empty>]` followed by
deleting them: a filter that drops exactly the empty-string-valued keys. -/
def removeEmptyFields (e : List (String × Value)) : List (String × Value) :=
  e.filter (fun p =>
    match p.2 with
    | Value.str s => s != ""
    | _ => true)

/-- The event the Failure path hands to `hec.batchEvent` (no empty-field
removal in the source). -/
def novaFailureEvent (ctx : NovaCtx) (check_id : String) (cd : Value) :
    List (String × Value) :=
  novaCheckEvent "Failure" ctx check_id cd

/-- The event the Success path hands to `hec.batchEvent`: the same build,
then the empty-string-valued keys are removed. -/
def novaSuccessEvent (ctx : NovaCtx) (check_id : String) (cd : Value) :
    List (String × Value) :=
  removeEmptyFields (novaCheckEvent "Success" ctx check_id cd)

/-- The event the Compliance path hands to `hec.batchEvent` (no
empty-field removal in the source). -/
def novaComplianceEvent (ctx : NovaCtx) (compliance : Value) :
    List (String × Value) :=
  let e := dictSet [] "job_id" (Value.str ctx.jid)
  let e := dictSet e "compliance_percentage" compliance
  novaCommonFields ctx e

/-!
Helper functions used only to state and prove the theorems below.
-/

/-- Number of POST attempts recorded in a trace. -/
def countPosts (acts : List Action) : Nat :=
  acts.countP (fun a =>
    match a with
    | Action.post _ _ _ => true
    | _ => false)

/-- The trace `serverAttempts` produces when no attempt succeeds: a sleep
before every attempt except attempt 0, then the POST. -/
def failTrace (url : String) (retrySleep : Nat) (body : String) :
    Nat → Nat → List Action
  | _, 0 => []
  | retries, remaining + 1 =>
    (if retries ≠ 0 then [Action.sleep url retrySleep] else []) ++
      Action.post url retries body ::
        failTrace url retrySleep body (retries + 1) remaining

/-- The endpoint health `serverAttempts` leaves behind when no attempt
succeeds: each requestException attempt overwrites it with `false`. -/
def failHealth (o : Nat → AttemptOutcome) : Nat → Nat → Bool → Bool
  | _, 0, h => h
  | retries, remaining + 1, h =>
    failHealth o (retries + 1) remaining
      (if o retries = AttemptOutcome.requestException then false else h)

/-- The (string) column value of a row, defaulting to the empty string;
used only to state the C8 theorem. -/
def rowStr (row : Row) (column : String) : String :=
  match rowGet row column with
  | some (Value.str v) => v
  | _ => ""

/-!
Shared lemmas about the delivery client.
-/

/-- When no attempt on an endpoint succeeds, the retry loop runs its whole
budget and produces exactly the `failTrace`/`failHealth` outcome. -/
theorem serverAttempts_fail_eq (net : String → Nat → AttemptOutcome)
    (url : String) (rs : Nat) (body : String)
    (hfail : ∀ i, net url i ≠ AttemptOutcome.success) :
    ∀ remaining retries h,
      serverAttempts net url rs body retries remaining h =
        (false, failHealth (net url) retries remaining h,
          failTrace url rs body retries remaining) := by
  intro remaining
  induction remaining with
  | zero => intro retries h; rfl
  | succ n ih =>
    intro retries h
    cases ho : net url retries with
    | success => exact absurd ho (hfail retries)
    | timeout => simp [serverAttempts, ho, failTrace, failHealth, ih]
    | connectionError => simp [serverAttempts, ho, failTrace, failHealth, ih]
    | httpError => simp [serverAttempts, ho, failTrace, failHealth, ih]
    | requestException => simp [serverAttempts, ho, failTrace, failHealth, ih]
    | otherException => simp [serverAttempts, ho, failTrace, failHealth, ih]

/-- A full failure trace holds one POST per budgeted attempt. -/
theorem countPosts_failTrace (url : String) (rs : Nat) (body : String) :
    ∀ remaining retries,
      countPosts (failTrace url rs body retries remaining) = remaining := by
  intro remaining
  induction remaining with
  | zero => intro retries; rfl
  | succ n ih =>
    intro retries
    by_cases h : retries ≠ 0 <;>
      simp [failTrace, h, countPosts, List.countP_append, List.countP_cons]
        at ih ⊢ <;>
      simp [ih]

/-- If no attempt raises a RequestException, the health value survives the
whole failing retry loop unchanged. -/
theorem failHealth_of_no_reqexc (o : Nat → AttemptOutcome)
    (hno : ∀ i, o i ≠ AttemptOutcome.requestException) :
    ∀ remaining retries h, failHealth o retries remaining h = h := by
  intro remaining
  induction remaining with
  | zero => intro retries h; rfl
  | succ n ih =>
    intro retries h
    rw [failHealth, if_neg (hno retries), ih]

/-- A health value of `false` is never restored by a failing retry loop. -/
theorem failHealth_false (o : Nat → AttemptOutcome) :
    ∀ remaining retries, failHealth o retries remaining false = false := by
  intro remaining
  induction remaining with
  | zero => intro retries; rfl
  | succ n ih =>
    intro retries
    rw [failHealth]
    split <;> exact ih _

/-- If every attempt raises a RequestException, health ends up `false`. -/
theorem failHealth_reqexc (o : Nat → AttemptOutcome)
    (hall : ∀ i, o i = AttemptOutcome.requestException) :
    ∀ remaining retries h, failHealth o retries (remaining + 1) h = false := by
  intro remaining retries h
  rw [failHealth, if_pos (hall retries), failHealth_false]

/-- Membership decomposition for the action block of one attempt. -/
theorem mem_sleepPost {url : String} {rs : Nat} {body : String}
    {retries : Nat} {t : List Action} {a : Action}
    (ha : a ∈ ((if retries ≠ 0 then [Action.sleep url rs] else []) ++
      (Action.post url retries body :: t))) :
    a = Action.sleep url rs ∨ a = Action.post url retries body ∨ a ∈ t := by
  rcases List.mem_append.1 ha with h1 | h1
  · split at h1
    · exact Or.inl (List.mem_singleton.1 h1)
    · simp at h1
  · rcases List.mem_cons.1 h1 with h1 | h1
    · exact Or.inr (Or.inl h1)
    · exact Or.inr (Or.inr h1)

/-- Every action of one endpoint retry loop is a sleep or a POST against
that endpoint with the given body. -/
theorem serverAttempts_mem (net : String → Nat → AttemptOutcome)
    (url : String) (rs : Nat) (body : String) :
    ∀ remaining retries h a,
      a ∈ (serverAttempts net url rs body retries remaining h).2.2 →
      (∃ s, a = Action.sleep url s) ∨ ∃ j, a = Action.post url j body := by
  intro remaining
  induction remaining with
  | zero => intro retries h a ha; simp [serverAttempts] at ha
  | succ n ih =>
    intro retries h a ha
    cases ho : net url retries <;>
      simp only [serverAttempts, ho, List.append_assoc, List.singleton_append,
        List.append_nil] at ha <;>
      rcases mem_sleepPost ha with h1 | h1 | h1 <;>
      first
        | exact Or.inl ⟨rs, h1⟩
        | exact Or.inr ⟨retries, h1⟩
        | exact ih _ _ a h1
        | simp at h1

/-- Every action of the endpoint loop belongs to one of its endpoints. -/
theorem flushServers_mem (net : String → Nat → AttemptOutcome)
    (mr rs : Nat) (body : String) :
    ∀ L a, a ∈ (flushServers net mr rs body L).2.2 →
      ∃ url hh, (url, hh) ∈ L ∧
        ((∃ s, a = Action.sleep url s) ∨ ∃ j, a = Action.post url j body) := by
  intro L
  induction L with
  | nil => intro a ha; simp [flushServers] at ha
  | cons p rest ih =>
    intro a ha
    obtain ⟨url, h⟩ := p
    rw [flushServers] at ha
    by_cases hs : (serverAttempts net url rs body 0 (mr + 1) h).1
    · simp only [hs, if_pos] at ha
      exact ⟨url, h, List.mem_cons_self _ _,
        serverAttempts_mem net url rs body _ _ _ a ha⟩
    · simp only [hs, Bool.false_eq_true, if_false, List.mem_append] at ha
      rcases ha with ha | ha
      · exact ⟨url, h, List.mem_cons_self _ _,
          serverAttempts_mem net url rs body _ _ _ a ha⟩
      · obtain ⟨u2, h2, hmem, hshape⟩ := ih a ha
        exact ⟨u2, h2, List.mem_cons_of_mem _ hmem, hshape⟩

/-- If a prefix of the endpoint list already delivers the batch, appending
further endpoints changes nothing: they are neither attempted nor
modified. -/
theorem flushServers_append (net : String → Nat → AttemptOutcome)
    (mr rs : Nat) (body : String) :
    ∀ ss ss2, (flushServers net mr rs body ss).1 = true →
      flushServers net mr rs body (ss ++ ss2) =
        (true, (flushServers net mr rs body ss).2.1 ++ ss2,
          (flushServers net mr rs body ss).2.2) := by
  intro ss
  induction ss with
  | nil => intro ss2 hs; simp [flushServers] at hs
  | cons p rest ih =>
    intro ss2 hs
    obtain ⟨url, h⟩ := p
    rw [flushServers] at hs
    rw [List.cons_append, flushServers]
    by_cases hr : (serverAttempts net url rs body 0 (mr + 1) h).1
    · simp only [hr, if_pos] at hs ⊢
      rw [flushServers, if_pos hr]
      simp
    · simp only [hr, Bool.false_eq_true, if_false] at hs ⊢
      rw [flushServers]
      simp only [hr, Bool.false_eq_true, if_false]
      simp [ih ss2 hs]

/-- The first budgeted attempt of a retry loop always POSTs. -/
theorem serverAttempts_first_post (net : String → Nat → AttemptOutcome)
    (url : String) (rs : Nat) (body : String) (retries n : Nat) (h : Bool) :
    Action.post url retries body ∈
      (serverAttempts net url rs body retries (n + 1) h).2.2 := by
  cases ho : net url retries <;> simp [serverAttempts, ho]

/-- A flush of a non-empty batch always clears the pending list and the
byte counter, regardless of delivery outcome. -/
theorem flushBatch_clears (net : String → Nat → AttemptOutcome) (rf : Bool)
    (cmr crs : Nat) (st : HecState) (h : st.batchEvents ≠ []) :
    (flushBatch net rf cmr crs st).1.batchEvents = [] ∧
    (flushBatch net rf cmr crs st).1.currentByteLength = 0 := by
  rw [flushBatch, if_pos (by simpa using List.length_pos.2 h)]
  exact ⟨rfl, rfl⟩

/-- A flush of an empty batch is a complete no-op. -/
theorem flushBatch_of_empty (net : String → Nat → AttemptOutcome) (rf : Bool)
    (cmr crs : Nat) (st : HecState) (h : st.batchEvents = []) :
    flushBatch net rf cmr crs st = (st, []) := by
  rw [flushBatch, if_neg (by simp [h])]

/-- The endpoint loop on a non-empty endpoint list emits at least one
POST. -/
theorem flushServers_cons_trace_ne_nil (net : String → Nat → AttemptOutcome)
    (mr rs : Nat) (body : String) (url : String) (h : Bool)
    (rest : List (String × Bool)) :
    (flushServers net mr rs body ((url, h) :: rest)).2.2 ≠ [] := by
  rw [flushServers]
  by_cases hr : (serverAttempts net url rs body 0 (mr + 1) h).1
  · simp only [hr, if_pos]
    exact List.ne_nil_of_mem (serverAttempts_first_post net url rs body 0 mr h)
  · simp only [hr, Bool.false_eq_true, if_false]
    exact fun hc => List.ne_nil_of_mem
      (List.mem_append_left _ (serverAttempts_first_post net url rs body 0 mr h))
      hc

/-!
Claim theorems.
-/

/-- C1 (counterexample): the claim says a connection-establishment failure
marks the endpoint unhealthy and moves on to the next endpoint without
exhausting the retry budget.  Against an endpoint A that always raises
ConnectionError (with endpoint B succeeding) and max_retries = 2, the code
instead performs all three budgeted attempts on A before touching B and
leaves A marked healthy. -/
theorem C1_counterexample :
    (flushBatch
      (fun u _ => if u = "A" then AttemptOutcome.connectionError
                  else AttemptOutcome.success)
      true 2 7 ⟨["e1"], 2, 100000, [("A", true), ("B", true)]⟩).1.serverUri =
      [("A", true), ("B", true)] ∧
    (flushBatch
      (fun u _ => if u = "A" then AttemptOutcome.connectionError
                  else AttemptOutcome.success)
      true 2 7 ⟨["e1"], 2, 100000, [("A", true), ("B", true)]⟩).2 =
      [Action.post "A" 0 "e1", Action.sleep "A" 7, Action.post "A" 1 "e1",
       Action.sleep "A" 7, Action.post "A" 2 "e1", Action.post "B" 0 "e1"] := by
  constructor <;> rfl

/-- C1 (amended): in `flushBatch`, timeouts, connection-establishment
errors and HTTP errors neither mark the endpoint unhealthy nor
short-circuit to the next endpoint; a generic RequestException marks the
endpoint unhealthy but likewise does not short-circuit.  In every failure
mode the full retry budget (`max_retries + 1` attempts) is exhausted on an
endpoint before delivery moves to the next endpoint in order. -/
theorem C1_failure_classification
    (net : String → Nat → AttemptOutcome) (url : String) (rs : Nat)
    (body : String) (maxR : Nat) (h : Bool) :
    ((∀ i, net url i ≠ AttemptOutcome.success) →
      (serverAttempts net url rs body 0 (maxR + 1) h).1 = false ∧
      countPosts (serverAttempts net url rs body 0 (maxR + 1) h).2.2 =
        maxR + 1) ∧
    ((∀ i, net url i = AttemptOutcome.connectionError ∨
        net url i = AttemptOutcome.timeout ∨
        net url i = AttemptOutcome.httpError) →
      (serverAttempts net url rs body 0 (maxR + 1) h).2.1 = h) ∧
    ((∀ i, net url i = AttemptOutcome.requestException) →
      (serverAttempts net url rs body 0 (maxR + 1) h).2.1 = false) ∧
    (∀ rest, (∀ i, net url i ≠ AttemptOutcome.success) →
      (flushServers net maxR rs body ((url, h) :: rest)).2.2 =
        failTrace url rs body 0 (maxR + 1) ++
          (flushServers net maxR rs body rest).2.2) := by
  refine ⟨fun hfail => ?_, fun hco => ?_, fun hre => ?_, fun rest hfail => ?_⟩
  · rw [serverAttempts_fail_eq net url rs body hfail]
    exact ⟨rfl, countPosts_failTrace url rs body _ _⟩
  · have hfail : ∀ i, net url i ≠ AttemptOutcome.success := by
      intro i hc
      rcases hco i with hco | hco | hco <;> rw [hc] at hco <;> exact absurd hco (by simp)
    rw [serverAttempts_fail_eq net url rs body hfail]
    refine failHealth_of_no_reqexc (net url) (fun i hc => ?_) _ _ _
    rcases hco i with hco | hco | hco <;> rw [hc] at hco <;> exact absurd hco (by simp)
  · have hfail : ∀ i, net url i ≠ AttemptOutcome.success := by
      intro i hc
      have := hre i
      rw [hc] at this
      exact absurd this (by simp)
    rw [serverAttempts_fail_eq net url rs body hfail]
    exact failHealth_reqexc (net url) hre _ _ _
  · rw [flushServers]
    rw [serverAttempts_fail_eq net url rs body hfail]
    simp

/-- C1 witness. -/
theorem C1_witness :
    ((serverAttempts (fun _ _ => AttemptOutcome.connectionError) "A" 7 "b" 0
        3 true).1 = false ∧
      countPosts ((serverAttempts (fun _ _ => AttemptOutcome.connectionError)
        "A" 7 "b" 0 3 true).2.2) = 3) ∧
    (serverAttempts (fun _ _ => AttemptOutcome.connectionError) "A" 7 "b" 0
        3 true).2.1 = true ∧
    (serverAttempts (fun _ _ => AttemptOutcome.requestException) "A" 7 "b" 0
        3 true).2.1 = false :=
  ⟨(C1_failure_classification (fun _ _ => AttemptOutcome.connectionError)
      "A" 7 "b" 2 true).1 (fun i => by decide),
   (C1_failure_classification (fun _ _ => AttemptOutcome.connectionError)
      "A" 7 "b" 2 true).2.1 (fun i => by decide),
   (C1_failure_classification (fun _ _ => AttemptOutcome.requestException)
      "A" 7 "b" 2 true).2.2.1 (fun i => by decide)⟩

/-- C2 (counterexample): the claim says the dedup utility keeps the first
occurrence of each element, with `_dedupList [1,2,1,3,2] = [1,2,3]`.  The
code keeps an element only when no duplicate occurs later, so it keeps the
last occurrence: `_dedupList [1,2,1,3,2] = [1,3,2]`. -/
theorem C2_counterexample :
    dedupList [1, 2, 1, 3, 2] = [1, 3, 2] ∧
    dedupList [1, 2, 1, 3, 2] ≠ [1, 2, 3] := by
  constructor <;> decide

/-- C2 (amended): for every input list, `_dedupList` returns a new list
that keeps the last occurrence of each element (value equality) and
preserves the order of those last occurrences; it agrees with the
standard last-occurrence dedup, and on `[1,2,1,3,2]` yields `[1,3,2]`. -/
theorem C2_dedup_keeps_last :
    (∀ (α : Type) [DecidableEq α] (l : List α), dedupList l = l.dedup) ∧
    dedupList [1, 2, 1, 3, 2] = [1, 3, 2] := by
  constructor
  · intro α _ l
    induction l with
    | nil => rfl
    | cons x xs ih =>
      by_cases h : x ∈ xs
      · rw [dedupList, if_pos h, ih, List.dedup_cons_of_mem h]
      · rw [dedupList, if_neg h, ih, List.dedup_cons_of_not_mem h]
  · decide

/-- C3 (counterexample): with a pending byte count of 10, a budget of 12
and an 11th-to-15th byte event of serialized length 5, the overflow path
flushes and appends the event, but leaves the byte counter at 0 instead of
counting the serialized length 5 of the event that started the new
batch. -/
theorem C3_counterexample :
    (batchEvent (fun _ _ => AttemptOutcome.success) false 3 15
      ⟨["e1"], 10, 12, [("A", true)]⟩ "ppppp").1.currentByteLength ≠
      "ppppp".length := by decide

/-- C3 (amended): when the current byte count plus the serialized length
of the new event exceeds max_bytes, `batchEvent` calls `flushBatch` first
(the emitted actions are exactly those of that flush), the counter is
reset to 0, and the triggering event is appended as the sole element of
the new pending batch — but its serialized length is NOT added to the new
byte counter, which stays 0. -/
theorem C3_overflow_restarts_batch
    (net : String → Nat → AttemptOutcome) (rf : Bool) (cmr crs : Nat)
    (st : HecState) (p : String)
    (hover : st.currentByteLength + p.length > st.maxByteLength)
    (hne : st.batchEvents ≠ []) :
    (batchEvent net rf cmr crs st p).1.batchEvents = [p] ∧
    (batchEvent net rf cmr crs st p).1.currentByteLength = 0 ∧
    (batchEvent net rf cmr crs st p).2 = (flushBatch net rf cmr crs st).2 := by
  obtain ⟨h1, h2⟩ := flushBatch_clears net rf cmr crs st hne
  rw [batchEvent]
  simp only [if_pos hover]
  refine ⟨?_, ?_, ?_⟩
  · simp [h1]
  · simp [h2]
  · trivial

/-- C3 witness. -/
theorem C3_witness :
    (batchEvent (fun _ _ => AttemptOutcome.success) false 3 15
      ⟨["e1"], 10, 12, [("A", true)]⟩ "ppppp").1.batchEvents = ["ppppp"] ∧
    (batchEvent (fun _ _ => AttemptOutcome.success) false 3 15
      ⟨["e1"], 10, 12, [("A", true)]⟩ "ppppp").1.currentByteLength = 0 ∧
    (batchEvent (fun _ _ => AttemptOutcome.success) false 3 15
      ⟨["e1"], 10, 12, [("A", true)]⟩ "ppppp").2 =
      (flushBatch (fun _ _ => AttemptOutcome.success) false 3 15
        ⟨["e1"], 10, 12, [("A", true)]⟩).2 :=
  C3_overflow_restarts_batch (fun _ _ => AttemptOutcome.success) false 3 15
    ⟨["e1"], 10, 12, [("A", true)]⟩ "ppppp" (by decide) (by decide)

/-- C5: with the retry flag enabled and max_retries = 2, a flush of a
non-empty batch against an always-failing endpoint performs exactly three
POST attempts (one initial, two retries), sleeping retry_sleep seconds
immediately before attempts 2 and 3 and never before attempt 1; with the
retry flag disabled, max_retries = 0 and exactly one attempt is made with
no sleep. -/
theorem C5_retry_timing
    (net : String → Nat → AttemptOutcome) (url : String) (rs cfg : Nat)
    (st : HecState) (hne : st.batchEvents ≠ [])
    (huri : st.serverUri = [(url, true)])
    (hfail : ∀ i, net url i ≠ AttemptOutcome.success) :
    (flushBatch net true 2 rs st).2 =
      [Action.post url 0 (String.intercalate " " st.batchEvents),
       Action.sleep url rs,
       Action.post url 1 (String.intercalate " " st.batchEvents),
       Action.sleep url rs,
       Action.post url 2 (String.intercalate " " st.batchEvents)] ∧
    (flushBatch net false cfg rs st).2 =
      [Action.post url 0 (String.intercalate " " st.batchEvents)] := by
  have hlen : st.batchEvents.length > 0 := List.length_pos.2 hne
  constructor
  · rw [flushBatch, if_pos hlen]
    simp only [huri, if_true]
    rw [show List.filter (fun x => decide (x.2 ≠ false)) [(url, true)] =
      [(url, true)] from rfl]
    rw [flushServers, serverAttempts_fail_eq net url rs _ hfail]
    simp only [Bool.false_eq_true, if_false, flushServers]
    rw [show failTrace url rs (String.intercalate " " st.batchEvents) 0 (2 + 1) =
      [Action.post url 0 (String.intercalate " " st.batchEvents),
       Action.sleep url rs,
       Action.post url 1 (String.intercalate " " st.batchEvents),
       Action.sleep url rs,
       Action.post url 2 (String.intercalate " " st.batchEvents)] from rfl]
    simp
  · rw [flushBatch, if_pos hlen]
    simp only [huri, Bool.false_eq_true, if_false]
    rw [show List.filter (fun x => decide (x.2 ≠ false)) [(url, true)] =
      [(url, true)] from rfl]
    rw [flushServers, serverAttempts_fail_eq net url 15 _ hfail]
    simp only [Bool.false_eq_true, if_false, flushServers]
    rw [show failTrace url 15 (String.intercalate " " st.batchEvents) 0 (0 + 1) =
      [Action.post url 0 (String.intercalate " " st.batchEvents)] from rfl]
    simp

/-- C5 witness. -/
theorem C5_witness :
    (flushBatch (fun _ _ => AttemptOutcome.timeout) true 2 9
      ⟨["e1", "e2"], 7, 100000, [("A", true)]⟩).2 =
      [Action.post "A" 0 "e1 e2", Action.sleep "A" 9,
       Action.post "A" 1 "e1 e2", Action.sleep "A" 9,
       Action.post "A" 2 "e1 e2"] ∧
    (flushBatch (fun _ _ => AttemptOutcome.timeout) false 5 9
      ⟨["e1", "e2"], 7, 100000, [("A", true)]⟩).2 =
      [Action.post "A" 0 "e1 e2"] :=
  C5_retry_timing (fun _ _ => AttemptOutcome.timeout) "A" 9 5
    ⟨["e1", "e2"], 7, 100000, [("A", true)]⟩ (by decide) rfl
    (fun i h => (AttemptOutcome.noConfusion h : False))

/-- C6: every POST of a `flushBatch` call targets an endpoint that was
healthy when the call started — an endpoint marked unhealthy earlier in
the session is filtered out and never attempted again (health is never
reset); and as soon as some endpoint accepts the batch, the endpoints
after it are neither attempted nor modified. -/
theorem C6_endpoint_health_invariant :
    (∀ (net : String → Nat → AttemptOutcome) (rf : Bool) (cmr crs : Nat)
        (st : HecState) (u : String) (i : Nat) (b : String),
        Action.post u i b ∈ (flushBatch net rf cmr crs st).2 →
        (u, true) ∈ st.serverUri) ∧
    (∀ (net : String → Nat → AttemptOutcome) (mr rs : Nat) (body : String)
        (ss ss2 : List (String × Bool)),
        (flushServers net mr rs body ss).1 = true →
        flushServers net mr rs body (ss ++ ss2) =
          (true, (flushServers net mr rs body ss).2.1 ++ ss2,
            (flushServers net mr rs body ss).2.2)) := by
  constructor
  · intro net rf cmr crs st u i b hmem
    rw [flushBatch] at hmem
    by_cases hlen : st.batchEvents.length > 0
    · rw [if_pos hlen] at hmem
      simp only at hmem
      obtain ⟨url, hh, hin, hshape⟩ := flushServers_mem net _ _ _ _ _ hmem
      rcases hshape with ⟨s, hs⟩ | ⟨j, hj⟩
      · exact absurd hs (by simp)
      · obtain ⟨hu, -, -⟩ := Action.post.inj hj
        subst hu
        obtain ⟨hinuri, hp⟩ := List.mem_filter.1 hin
        have hh_true : hh = true := by
          cases hh
          · simp at hp
          · rfl
        rw [hh_true] at hinuri
        exact hinuri
    · rw [if_neg hlen] at hmem
      simp at hmem
  · exact flushServers_append

/-- C6 witness. -/
theorem C6_witness :
    ("A", true) ∈
      (⟨["e1"], 2, 100000, [("A", true)]⟩ : HecState).serverUri ∧
    flushServers (fun _ _ => AttemptOutcome.success) 2 9 "e1"
        ([("A", true)] ++ [("B", true)]) =
      (true,
        (flushServers (fun _ _ => AttemptOutcome.success) 2 9 "e1"
          [("A", true)]).2.1 ++ [("B", true)],
        (flushServers (fun _ _ => AttemptOutcome.success) 2 9 "e1"
          [("A", true)]).2.2) :=
  ⟨C6_endpoint_health_invariant.1 (fun _ _ => AttemptOutcome.success) true 2 9
      ⟨["e1"], 2, 100000, [("A", true)]⟩ "A" 0 "e1" (by decide),
   C6_endpoint_health_invariant.2 (fun _ _ => AttemptOutcome.success) 2 9 "e1"
      [("A", true)] [("B", true)] (by decide)⟩

/-- C7: after any `flushBatch` on a non-empty batch — whether delivery
succeeded or failed on every endpoint — the pending list is cleared and
the byte counter reset to 0; `flushBatch` on an empty pending list is a
no-op performing no network action and changing no state. -/
theorem C7_flush_clears_state
    (net : String → Nat → AttemptOutcome) (rf : Bool) (cmr crs : Nat)
    (st : HecState) :
    (st.batchEvents ≠ [] →
      (flushBatch net rf cmr crs st).1.batchEvents = [] ∧
      (flushBatch net rf cmr crs st).1.currentByteLength = 0) ∧
    (st.batchEvents = [] → flushBatch net rf cmr crs st = (st, [])) :=
  ⟨fun h => flushBatch_clears net rf cmr crs st h,
   fun h => flushBatch_of_empty net rf cmr crs st h⟩

/-- C7 witness. -/
theorem C7_witness :
    ((flushBatch (fun _ _ => AttemptOutcome.requestException) true 2 9
        ⟨["e1"], 2, 100000, [("A", true)]⟩).1.batchEvents = [] ∧
      (flushBatch (fun _ _ => AttemptOutcome.requestException) true 2 9
        ⟨["e1"], 2, 100000, [("A", true)]⟩).1.currentByteLength = 0) ∧
    flushBatch (fun _ _ => AttemptOutcome.requestException) true 2 9
        ⟨[], 2, 100000, [("A", true)]⟩ =
      (⟨[], 2, 100000, [("A", true)]⟩, []) :=
  ⟨(C7_flush_clears_state (fun _ _ => AttemptOutcome.requestException) true 2 9
      ⟨["e1"], 2, 100000, [("A", true)]⟩).1 (by decide),
   (C7_flush_clears_state (fun _ _ => AttemptOutcome.requestException) true 2 9
      ⟨[], 2, 100000, [("A", true)]⟩).2 rfl⟩

/-- C10: `batchEvent` never rejects or drops an event: the appended event
is always in the pending list afterwards.  When the serialized length of
the event alone exceeds max_bytes, the event still becomes the sole
pending element (after any previously pending events are flushed), and a
later flush sends it: every POST of that flush carries exactly this
oversized event as its body, and if any healthy endpoint remains the
flush does attempt delivery. -/
theorem C10_oversized_event_kept
    (net : String → Nat → AttemptOutcome) (rf : Bool) (cmr crs : Nat)
    (st : HecState) (p : String) :
    p ∈ (batchEvent net rf cmr crs st p).1.batchEvents ∧
    (st.maxByteLength < p.length →
      (batchEvent net rf cmr crs st p).1.batchEvents = [p] ∧
      (∀ u i b,
        Action.post u i b ∈
          (flushBatch net rf cmr crs (batchEvent net rf cmr crs st p).1).2 →
        b = p) ∧
      (∀ u, (u, true) ∈ (batchEvent net rf cmr crs st p).1.serverUri →
        (flushBatch net rf cmr crs (batchEvent net rf cmr crs st p).1).2 ≠
          [])) := by
  have hmem : p ∈ (batchEvent net rf cmr crs st p).1.batchEvents := by
    rw [batchEvent]
    split
    · simp
    · simp
  refine ⟨hmem, fun hbig => ?_⟩
  have hover : st.currentByteLength + p.length > st.maxByteLength :=
    lt_of_lt_of_le hbig (Nat.le_add_left _ _)
  have hbe : (batchEvent net rf cmr crs st p).1.batchEvents = [p] := by
    rw [batchEvent]
    simp only [if_pos hover]
    by_cases hne : st.batchEvents = []
    · rw [flushBatch_of_empty net rf cmr crs st hne]
      simp [hne]
    · simp [(flushBatch_clears net rf cmr crs st hne).1]
  refine ⟨hbe, ?_, ?_⟩
  · intro u i b hpost
    rw [flushBatch, if_pos (by simp [hbe])] at hpost
    simp only at hpost
    obtain ⟨url, hh, hin, hshape⟩ := flushServers_mem net _ _ _ _ _ hpost
    rcases hshape with ⟨s, hs⟩ | ⟨j, hj⟩
    · exact absurd hs (by simp)
    · obtain ⟨-, -, hb⟩ := Action.post.inj hj
      rw [hb, hbe]
      rfl
  · intro u hu
    rw [flushBatch, if_pos (by simp [hbe])]
    simp only
    have hfil : (u, true) ∈
        ((batchEvent net rf cmr crs st p).1.serverUri.filter
          (fun x => x.2 ≠ false)) :=
      List.mem_filter.2 ⟨hu, by simp⟩
    rcases hXfil : ((batchEvent net rf cmr crs st p).1.serverUri.filter
        (fun x => x.2 ≠ false)) with _ | ⟨⟨url, h⟩, rest⟩
    · rw [hXfil] at hfil
      simp at hfil
    · rw [hXfil]
      exact flushServers_cons_trace_ne_nil net _ _ _ url h rest

/-- C10 witness. -/
theorem C10_witness :
    (batchEvent (fun _ _ => AttemptOutcome.success) false 3 15
      ⟨[], 0, 3, [("A", true)]⟩ "vvvvv").1.batchEvents = ["vvvvv"] ∧
    (flushBatch (fun _ _ => AttemptOutcome.success) false 3 15
      (batchEvent (fun _ _ => AttemptOutcome.success) false 3 15
        ⟨[], 0, 3, [("A", true)]⟩ "vvvvv").1).2 ≠ [] :=
  ⟨((C10_oversized_event_kept (fun _ _ => AttemptOutcome.success) false 3 15
      ⟨[], 0, 3, [("A", true)]⟩ "vvvvv").2 (by decide)).1,
   ((C10_oversized_event_kept (fun _ _ => AttemptOutcome.success) false 3 15
      ⟨[], 0, 3, [("A", true)]⟩ "vvvvv").2 (by decide)).2.2 "A" (by decide)⟩

/-- An exception raised by a rule aborts the whole rule loop: the rules
after the failing one are never applied, whatever they are. -/
theorem applyStrRules_append_error
    (subst : String → String → String → String) (mb : String) :
    ∀ rs1 (bad : StrRule) (rs2 : List StrRule) (obj : MaskObj),
      (applyStrRules subst mb rs1 obj).2 = none →
      ((applyStrRule subst mb bad
        (applyStrRules subst mb rs1 obj).1).2).isSome = true →
      applyStrRules subst mb (rs1 ++ bad :: rs2) obj =
        ((applyStrRule subst mb bad (applyStrRules subst mb rs1 obj).1).1,
         (applyStrRule subst mb bad (applyStrRules subst mb rs1 obj).1).2) := by
  intro rs1
  induction rs1 with
  | nil =>
    intro bad rs2 obj hok herr
    simp only [applyStrRules, List.nil_append] at herr ⊢
    rcases he : (applyStrRule subst mb bad obj).2 with _ | e
    · rw [he] at herr
      simp at herr
    · simp [he]
  | cons rule rest ih =>
    intro bad rs2 obj hok herr
    simp only [applyStrRules, List.cons_append] at hok herr ⊢
    rcases he : (applyStrRule subst mb rule obj).2 with _ | e
    · simp only [he, List.append_eq] at hok herr ⊢
      exact ih bad rs2 _ hok herr
    · simp only [he] at hok
      simp at hok

/-- C4 (counterexample): with a first rule whose `query_name` key is
missing (its read raises a KeyError) followed by a well-formed rule that
would mask the password column of query q1, the function returns the
object completely unmasked: the error is not contained to the failing
rule, the remaining rule is skipped. -/
theorem C4_counterexample :
    mask_passwords_inplace (fun _ mb _ => mb)
      ⟨[⟨none, some "password", some ["p"]⟩,
        ⟨some "q1", some "password", some ["p"]⟩], some "X"⟩
      [[("q1", [[("password", Value.str "hunter2")]])]] =
      [[("q1", [[("password", Value.str "hunter2")]])]] ∧
    mask_passwords_inplace (fun _ mb _ => mb)
      ⟨[⟨some "q1", some "password", some ["p"]⟩], some "X"⟩
      [[("q1", [[("password", Value.str "hunter2")]])]] =
      [[("q1", [[("password", Value.str "X")]])]] ∧
    ([[("q1", [[("password", Value.str "hunter2")]])]] : MaskObj) ≠
      [[("q1", [[("password", Value.str "X")]])]] := by
  refine ⟨rfl, rfl, ?_⟩
  intro h
  simp only [List.cons.injEq, Prod.mk.injEq, Value.str.injEq, and_true,
    true_and] at h
  exact absurd h (by decide)

/-- C4 (amended): `mask_passwords_inplace` never raises to its caller (it
is a total function: the single try/except around the whole body swallows
every internal error after logging it), but an internal error is NOT
contained to the affected rule: the first rule that raises aborts the
whole rule loop, keeping only the masking applied before the error, and
none of the remaining rules is applied to the events. -/
theorem C4_error_aborts_remaining_rules
    (subst : String → String → String → String) (mask : MaskConfig)
    (obj : MaskObj) (rs1 : List StrRule) (bad : StrRule)
    (rs2 : List StrRule)
    (hsplit : mask.blacklisted_strings = rs1 ++ bad :: rs2)
    (hok : (applyStrRules subst (mask.mask_by.getD "******") rs1 obj).2 = none)
    (herr : ((applyStrRule subst (mask.mask_by.getD "******") bad
        (applyStrRules subst (mask.mask_by.getD "******") rs1 obj).1).2).isSome
        = true) :
    mask_passwords_inplace subst mask obj =
      (applyStrRule subst (mask.mask_by.getD "******") bad
        (applyStrRules subst (mask.mask_by.getD "******") rs1 obj).1).1 := by
  rw [mask_passwords_inplace]
  rw [hsplit, applyStrRules_append_error subst _ rs1 bad rs2 obj hok herr]

/-- C4 witness. -/
theorem C4_witness :
    mask_passwords_inplace (fun _ mb _ => mb)
      ⟨[⟨none, some "pw", some ["p"]⟩, ⟨some "q1", some "pw", some ["p"]⟩],
        some "X"⟩
      [[("q1", [[("pw", Value.str "s3")]])]] =
      [[("q1", [[("pw", Value.str "s3")]])]] :=
  (C4_error_aborts_remaining_rules (fun _ mb _ => mb)
    ⟨[⟨none, some "pw", some ["p"]⟩, ⟨some "q1", some "pw", some ["p"]⟩],
      some "X"⟩
    [[("q1", [[("pw", Value.str "s3")]])]]
    [] ⟨none, some "pw", some ["p"]⟩ [⟨some "q1", some "pw", some ["p"]⟩]
    rfl rfl rfl).trans rfl

/-- C8: for a `blacklisted_strings` rule, processing of a row list stops
with a break at the first row whose target column is absent or not a
string: every row before it is masked by the rule, the bad row and every
row after it in the same row list are left untouched, and no error is
raised. -/
theorem C8_break_on_first_bad_row
    (subst : String → String → String → String) (pats : List String)
    (maskBy column : String) (pre : List Row) (bad : Row) (post : List Row)
    (hpre : ∀ r ∈ pre, ∃ s, rowGet r column = some (Value.str s))
    (hbad : ∀ s, rowGet bad column ≠ some (Value.str s)) :
    maskStrRows subst (some pats) maskBy column (pre ++ bad :: post) =
      (pre.map (fun row => rowSet row column
        (Value.str (pats.foldl (fun acc q => subst q maskBy acc)
          (rowStr row column)))) ++ bad :: post, none) := by
  induction pre with
  | nil =>
    simp only [List.nil_append, List.map_nil, maskStrRows]
  | cons r rest ih =>
    obtain ⟨s, hs⟩ := hpre r (List.mem_cons_self r rest)
    rw [List.cons_append, List.map_cons]
    simp only [maskStrRows, hs]
    rw [ih (fun q hq => hpre q (List.mem_cons_of_mem r hq))]
    simp [rowStr, hs]

/-- C8 witness. -/
theorem C8_witness :
    maskStrRows (fun _ mb _ => mb) (some ["p"]) "X" "password"
      ([[("password", Value.str "a")]] ++
        [("other", Value.str "x")] :: [[("password", Value.str "b")]]) =
      ([[("password", Value.str "X")], [("other", Value.str "x")],
        [("password", Value.str "b")]], none) :=
  (C8_break_on_first_bad_row (fun _ mb _ => mb) ["p"] "X" "password"
    [[("password", Value.str "a")]] [("other", Value.str "x")]
    [[("password", Value.str "b")]]
    (by
      intro r hr
      rw [List.mem_singleton] at hr
      subst hr
      exact ⟨"a", rfl⟩)
    (by
      intro s h
      simp [rowGet] at h)).trans rfl

/-- C9 (counterexample): the claim says every event built by the nova
returner has its empty-string-valued keys removed, uniformly across the
Failure, Success and Compliance paths.  With an empty `local_fqdn`, the
Failure and Compliance events keep the key `dest_fqdn` with value the
empty string: only the Success path removes it. -/
theorem C9_counterexample :
    novaFailureEvent ⟨"j1", "m", "min", "h1", "10.0.0.5", "", some "u1", [], []⟩
        "chk" (Value.str "d") =
      [("check_result", Value.str "Failure"), ("check_id", Value.str "chk"),
       ("job_id", Value.str "j1"), ("description", Value.str "d"),
       ("master", Value.str "m"), ("minion_id", Value.str "min"),
       ("dest_host", Value.str "h1"), ("dest_ip", Value.str "10.0.0.5"),
       ("dest_fqdn", Value.str ""), ("system_uuid", Value.str "u1")] ∧
    ("dest_fqdn", Value.str "") ∈
      novaFailureEvent ⟨"j1", "m", "min", "h1", "10.0.0.5", "", some "u1", [], []⟩
        "chk" (Value.str "d") ∧
    ("dest_fqdn", Value.str "") ∈
      novaComplianceEvent
        ⟨"j1", "m", "min", "h1", "10.0.0.5", "", some "u1", [], []⟩
        (Value.num 95) := by
  refine ⟨rfl, ?_, ?_⟩
  · rw [show novaFailureEvent
        ⟨"j1", "m", "min", "h1", "10.0.0.5", "", some "u1", [], []⟩
        "chk" (Value.str "d") =
      [("check_result", Value.str "Failure"), ("check_id", Value.str "chk"),
       ("job_id", Value.str "j1"), ("description", Value.str "d"),
       ("master", Value.str "m"), ("minion_id", Value.str "min"),
       ("dest_host", Value.str "h1"), ("dest_ip", Value.str "10.0.0.5"),
       ("dest_fqdn", Value.str ""), ("system_uuid", Value.str "u1")] from rfl]
    simp
  · rw [show novaComplianceEvent
        ⟨"j1", "m", "min", "h1", "10.0.0.5", "", some "u1", [], []⟩
        (Value.num 95) =
      [("job_id", Value.str "j1"), ("compliance_percentage", Value.num 95),
       ("master", Value.str "m"), ("minion_id", Value.str "min"),
       ("dest_host", Value.str "h1"), ("dest_ip", Value.str "10.0.0.5"),
       ("dest_fqdn", Value.str ""), ("system_uuid", Value.str "u1")] from rfl]
    simp

/-- C9 (amended): only the Success path of the nova returner removes
empty-string-valued keys from the event before it is handed to batching;
no key with value the empty string ever survives in a Success event.  (The
Failure and Compliance paths hand their events over unchanged, as the
counterexample shows.) -/
theorem C9_success_path_strips_empty
    (ctx : NovaCtx) (check_id : String) (cd : Value) (k : String) :
    (k, Value.str "") ∉ novaSuccessEvent ctx check_id cd := by
  intro hmem
  rw [novaSuccessEvent, removeEmptyFields] at hmem
  have hp := (List.mem_filter.1 hmem).2
  simp at hp

/-- C9 witness. -/
theorem C9_witness :
    ("dest_fqdn", Value.str "") ∉
      novaSuccessEvent ⟨"j1", "m", "min", "h1", "10.0.0.5", "", some "u1", [], []⟩
        "chk" (Value.str "d") :=
  C9_success_path_strips_empty
    ⟨"j1", "m", "min", "h1", "10.0.0.5", "", some "u1", [], []⟩
    "chk" (Value.str "d") "dest_fqdn"

end Hubble
